import Mathlib

set_option maxRecDepth 20000

/-! Shallow embedding of the self-update engine of this repository:
`src/utils/utilities.py`, `src/utils/update_checker.py` and
`src/utils/update_installer.py`.  A file system is modelled as an
association list from path strings to file contents.  Lock state that is
observed once per poll and per-attempt operation outcomes are modelled as
functions of the attempt index.  Everything is executable so that concrete
runs can be evaluated by `decide` and `rfl`. -/

/-! ## File-system model -/

/-- A flat file-system snapshot: an association list from path strings to
file contents.  `FS.lookup` returns the first binding of a path. -/
abbrev FS := List (String × String)

/-- Content of the file stored at path `p`, or `none` when no such file
exists. -/
def FS.lookup : FS → String → Option String
  | [], _ => none
  | (q, c) :: rest, p => if q = p then some c else FS.lookup rest p

/-- Create or overwrite the file at path `p` with content `c`
(the effect of `shutil.copy2` into destination `p`). -/
def FS.write : FS → String → String → FS
  | [], p, c => [(p, c)]
  | (q, d) :: rest, p, c =>
    if q = p then (p, c) :: rest else (q, d) :: FS.write rest p c

/-- Delete the file at path `p` (the effect of `os.remove(p)`). -/
def FS.erase : FS → String → FS
  | [], _ => []
  | (q, c) :: rest, p =>
    if q = p then FS.erase rest p else (q, c) :: FS.erase rest p

/-! ## Python string primitives

The update checker compares version strings with the raw Python `>`
operator (lexicographic on code points) after `str.strip()`.  Both are
re-implemented here executably, because they must evaluate inside the
kernel on concrete inputs. -/

/-- Lexicographic order on code-point lists, exactly the order Python uses
to compare two `str` values. -/
def charListLt : List Char → List Char → Bool
  | [], [] => false
  | [], _ :: _ => true
  | _ :: _, [] => false
  | a :: as, b :: bs =>
    if a.val < b.val then true
    else if b.val < a.val then false
    else charListLt as bs

/-- Python `a < b` on strings: lexicographic comparison of code points. -/
def py_lt (a b : String) : Bool := charListLt a.data b.data

/-- Python `s.strip()`: remove leading and trailing whitespace. -/
def py_strip (s : String) : String :=
  String.mk (((s.data.dropWhile Char.isWhitespace).reverse.dropWhile
    Char.isWhitespace).reverse)

/-! ## FileGuard: `Utilities.wait_for_file_unlock` and
`Utilities.safe_file_operation` (`src/utils/utilities.py`, lines 108-156;
duplicated as `UpdateUtilities.wait_for_file_unlock` in
`src/utils/update_installer.py`, lines 243-249)

The lock state of the polled file is abstracted by `locked : Nat -> Bool`,
the outcome `Utilities.is_file_locked(file_path)` would report at the k-th
poll (0-indexed).  `is_file_locked` itself catches every `IOError`,
`OSError` and `PermissionError` and `os.path.exists` does not raise, so a
poll always yields a boolean. -/

/-- One step per remaining attempt of the loop
`for attempt in range(max_attempts)` in `wait_for_file_unlock`:
if the file is unlocked return `True` at once, otherwise sleep once and
retry.  The result records (returned boolean, number of polls performed,
number of sleeps performed). -/
def waitLoop (locked : Nat → Bool) (start : Nat) : Nat → Bool × Nat × Nat
  | 0 => (false, 0, 0)
  | n + 1 =>
    if locked start then
      ((waitLoop locked (start + 1) n).1,
       (waitLoop locked (start + 1) n).2.1 + 1,
       (waitLoop locked (start + 1) n).2.2 + 1)
    else (true, 1, 0)

/-- Embedding of `Utilities.wait_for_file_unlock(file_path, max_attempts,
delay)`.  The path argument is absorbed into `locked`; the delay only
scales total sleep time and is accounted for in the theorems. -/
def wait_for_file_unlock (locked : Nat → Bool) (max_attempts : Nat) :
    Bool × Nat × Nat :=
  waitLoop locked 0 max_attempts

/-- Result of `Utilities.safe_file_operation`: a returned value, a
re-raised file error (`OSError`/`IOError`/`PermissionError`, represented
by its message), or the `TypeError` produced by `raise last_exception`
when `last_exception` is still `None`. -/
inductive OpOutcome (α : Type) where
  | ok (a : α)
  | fileError (e : String)
  | typeError
deriving DecidableEq

/-- One step per remaining attempt of the loop
`for attempt in range(max_attempts)` in `safe_file_operation`.  `op k` is
the outcome of the k-th invocation of the wrapped operation (`Except.ok`
for a returned value, `Except.error` for a raised file error); `last` is
the running `last_exception`.  The result records
(outcome, number of invocations of the operation, number of sleeps). -/
def safeLoop {α : Type} (op : Nat → Except String α) (last : Option String)
    (start : Nat) : Nat → OpOutcome α × Nat × Nat
  | 0 =>
    ((match last with
      | none => OpOutcome.typeError
      | some e => OpOutcome.fileError e), 0, 0)
  | n + 1 =>
    match op start with
    | Except.ok a => (OpOutcome.ok a, 1, 0)
    | Except.error e =>
      ((safeLoop op (some e) (start + 1) n).1,
       (safeLoop op (some e) (start + 1) n).2.1 + 1,
       (safeLoop op (some e) (start + 1) n).2.2 + (if n = 0 then 0 else 1))

/-- Embedding of `Utilities.safe_file_operation(operation, *args,
max_attempts, delay, **kwargs)` (`src/utils/utilities.py`, lines 128-156).
`max_attempts` is an integer as in Python; `range(max_attempts)` has
`max_attempts.toNat` elements, so a non-positive value runs the loop zero
times and reaches `raise last_exception` with `last_exception = None`. -/
def safe_file_operation {α : Type} (op : Nat → Except String α)
    (max_attempts : Int) : OpOutcome α × Nat × Nat :=
  safeLoop op none 0 max_attempts.toNat

/-! ## Version check: `UpdateChecker.check_for_updates`
(`src/utils/update_checker.py`, lines 539-614) -/

/-- Exception categories that the version fetch or the rest of the checked
block can raise, mirroring the `except` clauses of `check_for_updates`:
`requests.exceptions.Timeout`, `requests.exceptions.ConnectionError`,
`requests.exceptions.RequestException`, and any other `Exception`. -/
inductive NetExn where
  | timeout
  | connectionError
  | requestException (msg : String)
  | otherException (msg : String)
deriving DecidableEq

/-- Outcome of the HTTP fetch of the remote version marker: either its
text body, or a raised exception. -/
inductive FetchResult where
  | ok (text : String)
  | raises (e : NetExn)
deriving DecidableEq

/-- Observable outcome of one call of `check_for_updates`:
an update flow was started (`update_exe` when frozen, `update_source`
otherwise), the user declined the offered update, the version was already
current, or an exception was caught and reported by printing. -/
inductive Outcome where
  | updateStarted (exeMode : Bool)
  | updateDeclined
  | upToDate
  | errorReported (e : NetExn)
deriving DecidableEq

/-- The `try` block of `check_for_updates(current_version, auto_update,
parent_window)`: strip the fetched marker, compare with the raw Python
string order (`latest_version > current_version`), and on the update path
either start the mode-appropriate flow directly (`auto_update`), or ask
the user (`userAccepts` abstracts `messagebox.askyesno`).  An exception in
the fetch escapes the block as `Except.error`. -/
def check_for_updates_body (fetch : FetchResult) (current : String)
    (auto frozen userAccepts : Bool) : Except NetExn Outcome :=
  match fetch with
  | FetchResult.raises e => Except.error e
  | FetchResult.ok text =>
    let latest := py_strip text
    if py_lt current latest then
      if auto then Except.ok (Outcome.updateStarted frozen)
      else if userAccepts then Except.ok (Outcome.updateStarted frozen)
      else Except.ok Outcome.updateDeclined
    else Except.ok Outcome.upToDate

/-- Embedding of `UpdateChecker.check_for_updates`: the `try` block
wrapped in the four `except` handlers, each of which prints the error and
returns normally. -/
def check_for_updates (fetch : FetchResult) (current : String)
    (auto frozen userAccepts : Bool) : Outcome :=
  match check_for_updates_body fetch current auto frozen userAccepts with
  | Except.ok o => o
  | Except.error e => Outcome.errorReported e

/-- True for the outcomes produced inside the
`if latest_version > current_version:` branch of `check_for_updates`. -/
def updatePathTaken : Outcome → Bool
  | Outcome.updateStarted _ => true
  | Outcome.updateDeclined => true
  | Outcome.upToDate => false
  | Outcome.errorReported _ => false

/-! ## ArchiveLocator: `UpdateChecker._find_github_zipball_root` and
`UpdateChecker._detect_project_root` (`src/utils/update_checker.py`,
lines 50-95)

An extraction directory is modelled two levels deep, which is all the
locator inspects: a list of top-level entries, each with a name, a
directory flag and (for directories) the list of `(name, is-directory)`
pairs of its immediate children. -/

/-- A top-level entry of the extraction directory, in `os.listdir` order. -/
structure TopEntry where
  name : String
  isDir : Bool
  children : List (String × Bool)
deriving DecidableEq

/-- Required marker directories of `_detect_project_root`. -/
def required_folders : List String :=
  ["assets", "docs", "ImageMagick", "setup", "src"]

/-- Required marker files of `_detect_project_root`. -/
def required_files : List String :=
  ["latestVersion.txt", "LICENSE", "README.md"]

/-- Embedding of `UpdateChecker._detect_project_root(directory)` applied
to a directory whose immediate children are `contents`: every required
folder must be present as a directory and every required file as a
non-directory. -/
def detect_project_root (contents : List (String × Bool)) : Bool :=
  (required_folders.all (fun f =>
    contents.any (fun c => c.1 == f && c.2 == true))) &&
  (required_files.all (fun f =>
    contents.any (fun c => c.1 == f && c.2 == false)))

/-- Minimal key items checked by the single-candidate phase of
`_find_github_zipball_root` (name membership only, regardless of kind). -/
def required_items : List String := ["src", "README.md"]

/-- The fallback phase of `_find_github_zipball_root`: scan the top-level
entries in listing order and return the first directory whose children
satisfy `_detect_project_root`. -/
def fallback_scan (extracted : List TopEntry) : Option String :=
  (extracted.find? (fun e => e.isDir && detect_project_root e.children)).map
    (fun e => e.name)

/-- Embedding of `UpdateChecker._find_github_zipball_root(extract_dir)`:
if the extraction directory holds exactly one entry and it is a directory
containing the two key items, return it; otherwise fall back to scanning
every top-level directory with the full signature check. -/
def find_github_zipball_root : List TopEntry → Option String
  | [e] =>
    if e.isDir &&
        required_items.all (fun item => e.children.any (fun c => c.1 == item)) then
      some e.name
    else fallback_scan [e]
  | l => fallback_scan l

/-- The `(name, is-directory)` pairs of the top-level entries themselves,
used to state that a flat archive already satisfies the signature at the
top level of the extraction directory. -/
def topLevelContents (entries : List TopEntry) : List (String × Bool) :=
  entries.map (fun e => (e.name, e.isDir))

/-- A flat archive: the extraction directory itself satisfies the full
project signature, with no wrapper directory around it.  Each top-level
subdirectory is a plain leaf directory. -/
def flatArchive : List TopEntry :=
  [⟨"assets", true, []⟩, ⟨"docs", true, []⟩, ⟨"ImageMagick", true, []⟩,
   ⟨"setup", true, []⟩, ⟨"src", true, []⟩,
   ⟨"latestVersion.txt", false, []⟩, ⟨"LICENSE", false, []⟩,
   ⟨"README.md", false, []⟩]

/-! ## DirectoryMerger: `Updater._merge_directory` together with
`Updater._copy_file_with_retry` (`src/utils/update_installer.py`, lines
825-851; the same walk-and-copy loop appears as `copy_item` in
`src/utils/update_checker.py`, lines 210-258)

The `os.walk` over the source tree is flattened into the list of the
files of the source tree as (relative path, contents) pairs in walk
order.  `locked p` holds when the copy onto destination path `p` exhausts
its retry budget and raises, which aborts the whole merge. -/

/-- Merge the source files into the destination snapshot, file by file in
walk order; a failed copy raises and aborts the merge (`none`). -/
def merge_directory (locked : String → Bool) :
    List (String × String) → FS → Option FS
  | [], dst => some dst
  | (p, c) :: rest, dst =>
    if locked p then none
    else merge_directory locked rest (FS.write dst p c)

/-! ## Executable-mode staging: `UpdateChecker.update_exe`
(`src/utils/update_checker.py`, lines 402-537)

The portion of `update_exe` from line 402 on is embedded: the steps before
it (download, extraction, executable discovery) only write inside the
session temporary directory and never touch the live executable path.
The staged path is `exe_path ++ ".new"` and the replacement script path is
`exe_path ++ ".update.bat"`, exactly as in the source. -/

/-- Outcome of the staging copy
`Utilities.safe_file_operation(shutil.copy2, new_exe_path, staged_exe)`:
it succeeds, or it raises after its retries leaving the staged path with
some truncated content or with none, or it returns but the staged file is
absent at the `os.path.exists(staged_exe)` check. -/
inductive StagingResult where
  | ok
  | raises (stagedLeftover : Option String)
  | completesButAbsent
deriving DecidableEq

/-- Inputs of one executable-mode staging run: the file-system snapshot,
the live executable path, the bytes of the located new executable, lock
behaviour of a pre-existing staged file, and the staging outcome. -/
structure ExeEnv where
  fs : FS
  exe_path : String
  new_exe_content : String
  stagedPreLocked : Bool
  stagedUnlockOk : Bool
  stagedRemoveOk : Bool
  staging : StagingResult
  scriptWriteOk : Bool

/-- Observable result of one executable-mode staging run: the final
file-system snapshot, whether the replacement script was created and the
restart callback enabled, whether an exception reached the outer `except`
handler, and whether the run reported success. -/
structure ExeRunResult where
  fs : FS
  scriptCreated : Bool
  restartEnabled : Bool
  raised : Bool
  reportedSuccess : Bool
deriving DecidableEq

/-- Staging copy and script creation (lines 428-530): perform the staging
copy, return early when the staged file is absent afterwards, otherwise
write the replacement script (its text abstracted, the claims only concern
its existence) and enable the restart callback. -/
def stage_and_script (env : ExeEnv) (fs1 : FS) : ExeRunResult :=
  match env.staging with
  | StagingResult.raises leftover =>
    { fs := (match leftover with
             | none => fs1
             | some c => FS.write fs1 (env.exe_path ++ ".new") c),
      scriptCreated := false, restartEnabled := false,
      raised := true, reportedSuccess := false }
  | StagingResult.completesButAbsent =>
    { fs := FS.erase fs1 (env.exe_path ++ ".new"),
      scriptCreated := false, restartEnabled := false,
      raised := false, reportedSuccess := false }
  | StagingResult.ok =>
    if env.scriptWriteOk then
      { fs := FS.write
                (FS.write fs1 (env.exe_path ++ ".new") env.new_exe_content)
                (env.exe_path ++ ".update.bat")
                ("replacement script targeting " ++ env.exe_path),
        scriptCreated := true, restartEnabled := true,
        raised := false, reportedSuccess := true }
    else
      { fs := FS.write fs1 (env.exe_path ++ ".new") env.new_exe_content,
        scriptCreated := false, restartEnabled := false,
        raised := true, reportedSuccess := false }

/-- Embedding of `UpdateChecker.update_exe` from line 402: handle a
pre-existing staged file (wait for unlock; if still locked remove it; if
even the removal fails raise, which the outer handler catches), then stage
and create the script. -/
def update_exe_staging (env : ExeEnv) : ExeRunResult :=
  if (FS.lookup env.fs (env.exe_path ++ ".new")).isSome && env.stagedPreLocked then
    if env.stagedUnlockOk then
      stage_and_script env env.fs
    else if env.stagedRemoveOk then
      stage_and_script env (FS.erase env.fs (env.exe_path ++ ".new"))
    else
      { fs := env.fs, scriptCreated := false, restartEnabled := false,
        raised := true, reportedSuccess := false }
  else
    stage_and_script env env.fs

/-- Concrete staging run whose staging copy raises after a truncated
write, used to instantiate the staging-failure frame theorem. -/
def exeStagingFailEnv : ExeEnv :=
  { fs := [("app.exe", "OLDBYTES")]
    exe_path := "app.exe"
    new_exe_content := "NEWBYTES"
    stagedPreLocked := false
    stagedUnlockOk := true
    stagedRemoveOk := true
    staging := StagingResult.raises (some "TRUNCATED")
    scriptWriteOk := true }

/-! ## Source-mode orchestration: `Updater.update_source`
(`src/utils/update_installer.py`, lines 478-632)

The run is parameterised by the outcomes of its collaborator steps.
Download and extraction failures reach the same top-level `except` handler
as a metadata-fetch failure and are folded into `metadataOk`.  The
per-item copy loop (lines 584-602) catches any exception of an item copy,
logs it at error severity and continues with the next item. -/

/-- Required items of the source-mode copy plan (line 576). -/
def items_to_copy : List String :=
  ["assets", "ImageMagick", "src", "latestVersion.txt", "LICENSE", "README.md"]

/-- Optional items, appended to the plan only when present (line 578). -/
def optional_items : List String := [".gitignore", ".github", "docs", "setup"]

/-- Inputs of one source-mode update run: whether the project root was
found, whether metadata fetch / download / extraction succeeded, whether
the release zipball (or the main-branch fallback) root was located,
which items exist in the located source root, and which item copies
raise (with which message). -/
structure SrcEnv where
  projectRootFound : Bool
  metadataOk : Bool
  releaseRootFound : Bool
  mainRootFound : Bool
  itemPresent : String → Bool
  itemCopyError : String → Option String

/-- Observable result of one source-mode update run. -/
structure RunResult where
  reportedSuccess : Bool
  finalProgress : Nat
  raisedToCaller : Option String
  errorLogs : List String
  warningLogs : List String
  tempCreated : Bool
  tempCleaned : Bool
  restartEnabled : Bool
deriving DecidableEq

/-- Result of a run whose exception reached the top-level `except`
handler (lines 628-632): the failure is logged at error severity and the
progress reset, but nothing is re-raised and the temporary directory is
not removed. -/
def failedRun (msg : String) (tempCreated : Bool) : RunResult :=
  { reportedSuccess := false
    finalProgress := 0
    raisedToCaller := none
    errorLogs := ["Update failed: " ++ msg]
    warningLogs := []
    tempCreated := tempCreated
    tempCleaned := false
    restartEnabled := false }

/-- The copy plan of a run: required items plus the optional items that
exist in the source root (lines 576-582). -/
def session_items (env : SrcEnv) : List String :=
  items_to_copy ++ optional_items.filter env.itemPresent

/-- Error log lines produced by the per-item copy loop: one line per
present item whose copy raised (line 600); the loop continues past each
failure. -/
def copy_error_logs (env : SrcEnv) : List String :=
  (session_items env).filterMap (fun item =>
    if env.itemPresent item then
      match env.itemCopyError item with
      | some e => some ("Failed to copy " ++ item ++ ": " ++ e)
      | none => none
    else none)

/-- Warning log lines for planned items missing from the source root
(line 602). -/
def missing_item_warnings (env : SrcEnv) : List String :=
  (session_items env).filterMap (fun item =>
    if env.itemPresent item then none
    else some ("Warning: " ++ item ++ " not found in source"))

/-- Result of a run that reaches the end of the `try` block (lines
604-626): temporary files removed, progress 100, success logged and the
restart callback enabled — regardless of what the per-item loop logged. -/
def successRun (env : SrcEnv) : RunResult :=
  { reportedSuccess := true
    finalProgress := 100
    raisedToCaller := none
    errorLogs := copy_error_logs env
    warningLogs := missing_item_warnings env
    tempCreated := true
    tempCleaned := true
    restartEnabled := true }

/-- Embedding of `Updater.update_source`: locate the project root, fetch
the release and extract it (failures raise into the top-level handler),
locate the archive root with the main-branch fallback, then run the
per-item copy loop and report success. -/
def update_source (env : SrcEnv) : RunResult :=
  if env.projectRootFound then
    if env.metadataOk then
      if env.releaseRootFound || env.mainRootFound then
        successRun env
      else
        failedRun "Could not find project structure in either release or main branch" true
    else
      failedRun "release information fetch failed" false
  else
    failedRun "Could not determine project root (README.md not found)" false

/-- Run in which everything succeeds except the copy of the required item
`src`, whose copy raises a permission error. -/
def envItemFail : SrcEnv :=
  { projectRootFound := true
    metadataOk := true
    releaseRootFound := true
    mainRootFound := false
    itemPresent := fun _ => true
    itemCopyError := fun item =>
      if item == "src" then some "PermissionError: file is locked" else none }

/-- Run in which the archive root is located neither in the release
zipball nor in the main-branch fallback, after the temporary directory was
created. -/
def envRootNotFound : SrcEnv :=
  { projectRootFound := true
    metadataOk := true
    releaseRootFound := false
    mainRootFound := false
    itemPresent := fun _ => true
    itemCopyError := fun _ => none }

/-- Fully successful run. -/
def envAllOk : SrcEnv :=
  { projectRootFound := true
    metadataOk := true
    releaseRootFound := true
    mainRootFound := true
    itemPresent := fun _ => true
    itemCopyError := fun _ => none }

/-! ## Helper lemmas about the file-system model -/

/-- Looking up a freshly written path returns the written content. -/
theorem fs_lookup_write_self (fs : FS) (p c : String) :
    FS.lookup (FS.write fs p c) p = some c := by
  induction fs with
  | nil => simp [FS.write, FS.lookup]
  | cons hd tl ih =>
    obtain ⟨q, d⟩ := hd
    by_cases h : q = p
    · subst h
      simp [FS.write, FS.lookup]
    · simp [FS.write, h, FS.lookup, ih]

/-- Writing one path leaves every other path unchanged. -/
theorem fs_lookup_write_ne (fs : FS) {p q : String} (c : String) (h : q ≠ p) :
    FS.lookup (FS.write fs p c) q = FS.lookup fs q := by
  have h2 : p ≠ q := Ne.symm h
  induction fs with
  | nil => simp [FS.write, FS.lookup, h2]
  | cons hd tl ih =>
    obtain ⟨r, d⟩ := hd
    by_cases hr : r = p
    · subst hr
      simp [FS.write, FS.lookup, h2]
    · simp [FS.write, hr, FS.lookup, ih]

/-- Erasing one path leaves every other path unchanged. -/
theorem fs_lookup_erase_ne (fs : FS) {p q : String} (h : q ≠ p) :
    FS.lookup (FS.erase fs p) q = FS.lookup fs q := by
  have h2 : p ≠ q := Ne.symm h
  induction fs with
  | nil => simp [FS.erase]
  | cons hd tl ih =>
    obtain ⟨r, d⟩ := hd
    by_cases hr : r = p
    · subst hr
      simp [FS.erase, FS.lookup, h2, ih]
    · simp [FS.erase, hr, FS.lookup, ih]

/-- A string is never equal to itself extended by a nonempty suffix. -/
theorem str_append_ne (s t : String) (ht : t.length ≠ 0) : s ≠ s ++ t := by
  intro h
  have h2 : s.length = (s ++ t).length := congrArg String.length h
  rw [String.length_append] at h2
  omega

/-- Appending suffixes of different lengths to the same string yields
different strings. -/
theorem str_append_ne_append (s t u : String) (h : t.length ≠ u.length) :
    s ++ t ≠ s ++ u := by
  intro he
  have h2 : (s ++ t).length = (s ++ u).length := congrArg String.length he
  rw [String.length_append, String.length_append] at h2
  omega

/-! ## Helper lemmas about the wait loop -/

/-- If the first unlocked poll is the k-th (0-indexed) and it is inside
the budget, the loop returns true after k+1 polls and k sleeps. -/
theorem waitLoop_unlocked (locked : Nat → Bool) :
    ∀ (k n start : Nat), k < n → locked (start + k) = false →
      (∀ j, j < k → locked (start + j) = true) →
      waitLoop locked start n = (true, k + 1, k) := by
  intro k
  induction k with
  | zero =>
    intro n start hk hun _
    match n, hk with
    | n + 1, _ =>
      rw [Nat.add_zero] at hun
      simp [waitLoop, hun]
  | succ k ih =>
    intro n start hk hun hall
    match n, hk with
    | n + 1, hk =>
      have h0 : locked start = true := by
        have := hall 0 (Nat.succ_pos k)
        simpa using this
      have hrec := ih n (start + 1) (Nat.lt_of_succ_lt_succ hk)
        (by rw [show start + 1 + k = start + (k + 1) by omega]; exact hun)
        (fun j hj => by
          rw [show start + 1 + j = start + (j + 1) by omega]
          exact hall (j + 1) (by omega))
      simp only [waitLoop, h0, if_true]
      rw [hrec]

/-- If every poll inside the budget reports locked, the loop returns false
after exactly n polls and n sleeps. -/
theorem waitLoop_locked (locked : Nat → Bool) :
    ∀ (n start : Nat), (∀ j, j < n → locked (start + j) = true) →
      waitLoop locked start n = (false, n, n) := by
  intro n
  induction n with
  | zero => intro start _; simp [waitLoop]
  | succ n ih =>
    intro start hall
    have h0 : locked start = true := by
      have := hall 0 (Nat.succ_pos n)
      simpa using this
    have hrec := ih (start + 1) (fun j hj => by
      rw [show start + 1 + j = start + (j + 1) by omega]
      exact hall (j + 1) (by omega))
    simp only [waitLoop, h0, if_true]
    rw [hrec]

/-! ## Helper lemmas about the retry loop -/

/-- The retry loop invokes the wrapped operation at most as many times as
it has remaining attempts. -/
theorem safeLoop_calls_le {α : Type} (op : Nat → Except String α) :
    ∀ (n : Nat) (last : Option String) (start : Nat),
      (safeLoop op last start n).2.1 ≤ n := by
  intro n
  induction n with
  | zero => intro last start; simp [safeLoop]
  | succ n ih =>
    intro last start
    simp only [safeLoop]
    cases h : op start with
    | ok a => simp
    | error e =>
      simp only
      have := ih (some e) (start + 1)
      omega

/-- If the k-th invocation is the first success and is inside the budget,
the loop returns its value after k+1 invocations and k sleeps. -/
theorem safeLoop_first_ok {α : Type} (op : Nat → Except String α) :
    ∀ (k n start : Nat) (last : Option String) (a : α), k < n →
      op (start + k) = Except.ok a →
      (∀ j, j < k → ∃ e, op (start + j) = Except.error e) →
      safeLoop op last start n = (OpOutcome.ok a, k + 1, k) := by
  intro k
  induction k with
  | zero =>
    intro n start last a hk hok _
    match n, hk with
    | n + 1, _ =>
      rw [Nat.add_zero] at hok
      simp [safeLoop, hok]
  | succ k ih =>
    intro n start last a hk hok hfail
    match n, hk with
    | n + 1, hk =>
      obtain ⟨e0, he0⟩ := hfail 0 (Nat.succ_pos k)
      rw [Nat.add_zero] at he0
      have hrec := ih n (start + 1) (some e0) a (Nat.lt_of_succ_lt_succ hk)
        (by rw [show start + 1 + k = start + (k + 1) by omega]; exact hok)
        (fun j hj => by
          obtain ⟨e, he⟩ := hfail (j + 1) (by omega)
          exact ⟨e, by rw [show start + 1 + j = start + (j + 1) by omega]; exact he⟩)
      have hn : ¬ n = 0 := by omega
      simp only [safeLoop, he0]
      rw [hrec]
      simp [hn]

/-- If every invocation inside the budget fails, the loop re-raises the
error of the final attempt after n invocations and n-1 sleeps. -/
theorem safeLoop_all_fail {α : Type} (op : Nat → Except String α) :
    ∀ (n start : Nat) (last : Option String), 1 ≤ n →
      (∀ j, j < n → ∃ e, op (start + j) = Except.error e) →
      ∃ e, op (start + (n - 1)) = Except.error e ∧
        safeLoop op last start n = (OpOutcome.fileError e, n, n - 1) := by
  intro n
  induction n with
  | zero => intro start last h; exact absurd h (by decide)
  | succ n ih =>
    intro start last _ hfail
    obtain ⟨e0, he0⟩ := hfail 0 (Nat.succ_pos n)
    rw [Nat.add_zero] at he0
    by_cases hn : n = 0
    · subst hn
      refine ⟨e0, by simpa using he0, ?_⟩
      simp [safeLoop, he0]
    · have h1 : 1 ≤ n := by omega
      obtain ⟨e, he, hrec⟩ := ih (start + 1) (some e0) h1
        (fun j hj => by
          obtain ⟨e, he⟩ := hfail (j + 1) (by omega)
          exact ⟨e, by rw [show start + 1 + j = start + (j + 1) by omega]; exact he⟩)
      refine ⟨e, ?_, ?_⟩
      · rw [show start + (n + 1 - 1) = start + 1 + (n - 1) by omega]
        exact he
      · simp only [safeLoop, he0]
        rw [hrec]
        rw [if_neg hn]
        simp only [Nat.succ_sub_one]
        rw [show n - 1 + 1 = n by omega]

/-! ## Claim theorems -/

/-- Claim C5: for all source trees S and destination trees D, after
merge(S, D) completes without a lock failure, every file present in S
exists in D at the matching relative path with contents equal to the copy
in S, and every pre-existing file of D whose relative path does not occur
in S is unchanged. -/
theorem merge_directory_spec (locked : String → Bool) :
    ∀ (src : List (String × String)) (dst d : FS),
      merge_directory locked src dst = some d →
      (src.map Prod.fst).Nodup →
      (∀ p c, (p, c) ∈ src → FS.lookup d p = some c) ∧
      (∀ p, p ∉ src.map Prod.fst → FS.lookup d p = FS.lookup dst p) := by
  intro src
  induction src with
  | nil =>
    intro dst d hrun _
    simp only [merge_directory, Option.some.injEq] at hrun
    subst hrun
    exact ⟨fun p c h => absurd h (List.not_mem_nil _), fun p _ => rfl⟩
  | cons hd tl ih =>
    intro dst d hrun hkeys
    obtain ⟨q, cq⟩ := hd
    simp only [merge_directory] at hrun
    cases hl : locked q with
    | true => simp [hl] at hrun
    | false =>
      rw [hl] at hrun
      simp only [Bool.false_eq_true, if_false] at hrun
      rw [List.map_cons] at hkeys
      obtain ⟨hq, htl⟩ := List.nodup_cons.mp hkeys
      obtain ⟨ihmem, ihframe⟩ := ih (FS.write dst q cq) d hrun htl
      constructor
      · intro p c hmem
        rcases List.mem_cons.mp hmem with heq | hmemtl
        · obtain ⟨hp, hc⟩ := Prod.mk.injEq .. ▸ heq
          subst hp; subst hc
          rw [ihframe p hq]
          exact fs_lookup_write_self dst p c
        · exact ihmem p c hmemtl
      · intro p hp
        rw [List.map_cons, List.mem_cons] at hp
        push_neg at hp
        obtain ⟨hpq, hptl⟩ := hp
        rw [ihframe p hptl]
        exact fs_lookup_write_ne dst cq hpq

/-- Witness for C5 on a concrete merge: source files a and b merged into a
destination holding b and c; a and b receive source contents and c is
untouched. -/
theorem merge_directory_spec_witness :
    FS.lookup [("b", "2"), ("c", "3"), ("a", "1")] "a" = some "1" ∧
    FS.lookup [("b", "2"), ("c", "3"), ("a", "1")] "c" = some "3" :=
  ⟨(merge_directory_spec (fun _ => false) [("a", "1"), ("b", "2")]
      [("b", "0"), ("c", "3")] [("b", "2"), ("c", "3"), ("a", "1")]
      rfl (by decide)).1 "a" "1" (by decide),
   (merge_directory_spec (fun _ => false) [("a", "1"), ("b", "2")]
      [("b", "0"), ("c", "3")] [("b", "2"), ("c", "3"), ("a", "1")]
      rfl (by decide)).2 "c" (by decide)⟩

/-- Claim C6: wait_for_file_unlock returns true if the path is found
unlocked at some poll k within the budget, having slept (k-1) times (in
1-indexed poll counting) and hence at most (k-1) times the delay d before
returning; if the path is locked at every poll it returns false after
exactly n polls; the loop body never raises (the embedding is a total
function, mirroring is_file_locked catching all file errors). -/
theorem wait_for_file_unlock_spec (locked : Nat → Bool) (n d : Nat)
    (_hn : 1 ≤ n) :
    (∀ k, k < n → locked k = false → (∀ j, j < k → locked j = true) →
       wait_for_file_unlock locked n = (true, k + 1, k) ∧
       (wait_for_file_unlock locked n).2.2 * d ≤ k * d) ∧
    ((∀ j, j < n → locked j = true) →
       wait_for_file_unlock locked n = (false, n, n)) := by
  constructor
  · intro k hk hun hall
    have h := waitLoop_unlocked locked k n 0 hk (by simpa using hun)
      (fun j hj => by simpa using hall j hj)
    refine ⟨h, ?_⟩
    rw [show wait_for_file_unlock locked n = waitLoop locked 0 n from rfl, h]
  · intro hall
    exact waitLoop_locked locked n 0 (fun j hj => by simpa using hall j hj)

/-- Witness for C6: a path locked for the first two polls then released is
reported unlocked after three polls and two sleeps within a budget of
five; a path locked forever exhausts a budget of four. -/
theorem wait_for_file_unlock_spec_witness :
    wait_for_file_unlock (fun i => decide (i < 2)) 5 = (true, 3, 2) ∧
    wait_for_file_unlock (fun _ => true) 4 = (false, 4, 4) :=
  ⟨((wait_for_file_unlock_spec (fun i => decide (i < 2)) 5 7 (by decide)).1
      2 (by decide) (by decide) (fun j hj => decide_eq_true hj)).1,
   (wait_for_file_unlock_spec (fun _ => true) 4 7 (by decide)).2
      (fun j hj => rfl)⟩

/-- Claim C7: for every operation and every maxAttempts at least 1, the
retry wrapper safe_file_operation invokes the operation at most
maxAttempts times, returns the result of the first successful invocation
(after one sleep per preceding failure), and when every attempt fails it
re-raises the error of the final attempt — the last underlying error, not
a new one. -/
theorem safe_file_operation_spec {α : Type} (op : Nat → Except String α)
    (m : Int) (hm : 1 ≤ m) :
    (safe_file_operation op m).2.1 ≤ m.toNat ∧
    (∀ k a, k < m.toNat → op k = Except.ok a →
       (∀ j, j < k → ∃ e, op j = Except.error e) →
       safe_file_operation op m = (OpOutcome.ok a, k + 1, k)) ∧
    ((∀ j, j < m.toNat → ∃ e, op j = Except.error e) →
       ∃ e, op (m.toNat - 1) = Except.error e ∧
         safe_file_operation op m = (OpOutcome.fileError e, m.toNat, m.toNat - 1)) := by
  refine ⟨safeLoop_calls_le op m.toNat none 0, ?_, ?_⟩
  · intro k a hk hok hfail
    exact safeLoop_first_ok op k m.toNat 0 none a hk (by simpa using hok)
      (fun j hj => by simpa using hfail j hj)
  · intro hfail
    have h1 : 1 ≤ m.toNat := by omega
    obtain ⟨e, he, hloop⟩ := safeLoop_all_fail op m.toNat 0 none h1
      (fun j hj => by simpa using hfail j hj)
    exact ⟨e, by simpa using he, hloop⟩

/-- Witness for C7: an operation that fails once and then succeeds,
wrapped with three attempts, returns the success after two invocations and
one sleep. -/
theorem safe_file_operation_spec_witness :
    safe_file_operation
        (fun i => if i = 0 then Except.error "locked" else Except.ok (42 : Nat)) 3
      = (OpOutcome.ok 42, 2, 1) :=
  (safe_file_operation_spec
      (fun i => if i = 0 then Except.error "locked" else Except.ok (42 : Nat)) 3
      (by decide)).2.1 1 42 (by decide) rfl
    (fun j hj => ⟨"locked", by
      have hj0 : j = 0 := by omega
      subst hj0
      rfl⟩)

/-- Claim C9: with max_attempts non-positive, safe_file_operation never
invokes the wrapped operation and does not return a result or a file
error: the loop body runs zero times and `raise last_exception` is reached
with `last_exception = None`, a TypeError unrelated to any file
operation. -/
theorem safe_file_operation_zero_attempts {α : Type}
    (op : Nat → Except String α) (m : Int) (hm : m ≤ 0) :
    safe_file_operation op m = (OpOutcome.typeError, 0, 0) := by
  have h : m.toNat = 0 := by omega
  simp only [safe_file_operation, h]
  rfl

/-- Witness for C9 at max_attempts = 0 with an operation that would
succeed if it were ever invoked. -/
theorem safe_file_operation_zero_attempts_witness :
    safe_file_operation (fun _ => Except.ok (37 : Nat)) 0
      = (OpOutcome.typeError, 0, 0) :=
  safe_file_operation_zero_attempts (fun _ => Except.ok (37 : Nat)) 0 (by decide)

/-- Claim C8: check_for_updates compares the stripped remote version
marker to the current version with the raw Python string order: the
update path is taken exactly when the remote string is strictly greater,
and in particular remote 2.0.0 against current 1.9.0 triggers the update
path. -/
theorem check_for_updates_string_comparison :
    (∀ (text current : String) (auto frozen userAccepts : Bool),
       updatePathTaken
           (check_for_updates (FetchResult.ok text) current auto frozen userAccepts)
         = py_lt current (py_strip text)) ∧
    check_for_updates (FetchResult.ok "2.0.0") "1.9.0" false false true
      = Outcome.updateStarted false := by
  constructor
  · intro text current auto frozen ua
    simp only [check_for_updates, check_for_updates_body]
    cases h : py_lt current (py_strip text) with
    | false => simp [h, updatePathTaken]
    | true =>
      simp only [h, if_true]
      cases auto <;> cases ua <;> simp [updatePathTaken]
  · decide

/-- Claim C10: every exception of the version fetch or comparison is
caught by check_for_updates and reported, never propagated — the call
returns normally with an error-reported outcome; and when the remote
version string is not strictly greater than the current one the outcome
is up-to-date: no update flow is started. -/
theorem check_for_updates_catches_all :
    (∀ (e : NetExn) (current : String) (auto frozen userAccepts : Bool),
       check_for_updates (FetchResult.raises e) current auto frozen userAccepts
         = Outcome.errorReported e) ∧
    (∀ (text current : String) (auto frozen userAccepts : Bool),
       py_lt current (py_strip text) = false →
       check_for_updates (FetchResult.ok text) current auto frozen userAccepts
           = Outcome.upToDate ∧
       updatePathTaken
           (check_for_updates (FetchResult.ok text) current auto frozen userAccepts)
         = false) := by
  constructor
  · intro e current auto frozen ua
    rfl
  · intro text current auto frozen ua h
    constructor
    · simp [check_for_updates, check_for_updates_body, h]
    · simp [check_for_updates, check_for_updates_body, h, updatePathTaken]

/-- Witness for C10: a timeout during the fetch is reported, and with
equal remote and current versions no update flow is started. -/
theorem check_for_updates_catches_all_witness :
    check_for_updates (FetchResult.raises NetExn.timeout) "1.0.0" false false false
        = Outcome.errorReported NetExn.timeout ∧
    check_for_updates (FetchResult.ok "1.0.0") "1.0.0" true false true
        = Outcome.upToDate :=
  ⟨check_for_updates_catches_all.1 NetExn.timeout "1.0.0" false false false,
   (check_for_updates_catches_all.2 "1.0.0" "1.0.0" true false true (by decide)).1⟩

/-- Counterexample to claim C4 as stated: a flat archive whose own
top-level entries satisfy the full project signature, on which the locator
nevertheless fails — the fallback scan checks only top-level
subdirectories, never the extraction directory itself. -/
theorem find_github_zipball_root_flat_archive :
    detect_project_root (topLevelContents flatArchive) = true ∧
    find_github_zipball_root flatArchive = none := by decide

/-- Claim C4 as amended: a directory containing exactly one wrapper
directory whose contents satisfy the project signature is resolved to that
wrapper; but with two or more top-level entries (as in a flat archive) the
locator returns a root only if some top-level subdirectory itself
satisfies the signature — when none does, it returns none even if the
top level itself satisfies the signature. -/
theorem find_github_zipball_root_spec :
    (∀ e : TopEntry, e.isDir = true → detect_project_root e.children = true →
       find_github_zipball_root [e] = some e.name) ∧
    (∀ entries : List TopEntry, 2 ≤ entries.length →
       (∀ x, x ∈ entries → detect_project_root x.children = false) →
       find_github_zipball_root entries = none) := by
  constructor
  · intro e hdir hsig
    simp only [detect_project_root, Bool.and_eq_true, List.all_eq_true] at hsig
    obtain ⟨hfolders, hfiles⟩ := hsig
    have hsrc := hfolders "src" (by simp [required_folders])
    have hreadme := hfiles "README.md" (by simp [required_files])
    simp only [List.any_eq_true, Bool.and_eq_true, beq_iff_eq] at hsrc hreadme
    obtain ⟨cs, hcs_mem, hcs_name, _⟩ := hsrc
    obtain ⟨cr, hcr_mem, hcr_name, _⟩ := hreadme
    have hitems : required_items.all
        (fun item => e.children.any (fun c => c.1 == item)) = true := by
      simp only [required_items, List.all_eq_true, List.mem_cons,
        List.not_mem_nil, List.any_eq_true, beq_iff_eq]
      intro item hitem
      rcases hitem with h | h | h
      · exact ⟨cs, hcs_mem, h ▸ hcs_name⟩
      · exact ⟨cr, hcr_mem, h ▸ hcr_name⟩
      · exact h.elim
    simp [find_github_zipball_root, hdir, hitems]
  · intro entries hlen hall
    match entries, hlen with
    | a :: b :: t, _ =>
      have hfind : (a :: b :: t).find?
          (fun e => e.isDir && detect_project_root e.children) = none :=
        List.find?_eq_none.mpr (fun x hx => by simp [hall x hx])
      show fallback_scan (a :: b :: t) = none
      simp [fallback_scan, hfind]

/-- Witness for C4: the same signature-satisfying contents wrapped in a
single synthetic directory are resolved to that wrapper, while the flat
layout is not resolved. -/
theorem find_github_zipball_root_spec_witness :
    find_github_zipball_root
        [⟨"repo-main-abc123", true, topLevelContents flatArchive⟩]
      = some "repo-main-abc123" ∧
    find_github_zipball_root flatArchive = none :=
  ⟨find_github_zipball_root_spec.1
      ⟨"repo-main-abc123", true, topLevelContents flatArchive⟩ rfl (by decide),
   find_github_zipball_root_spec.2 flatArchive (by decide) (by decide)⟩

/-- When the staging copy does not succeed, the staging-and-script step
leaves the live executable path and the script path untouched, creates no
script, enables no restart and reports no success. -/
theorem stage_and_script_failure (env : ExeEnv) (fs1 : FS)
    (hfail : env.staging ≠ StagingResult.ok) :
    FS.lookup (stage_and_script env fs1).fs env.exe_path
        = FS.lookup fs1 env.exe_path ∧
    FS.lookup (stage_and_script env fs1).fs (env.exe_path ++ ".update.bat")
        = FS.lookup fs1 (env.exe_path ++ ".update.bat") ∧
    (stage_and_script env fs1).scriptCreated = false ∧
    (stage_and_script env fs1).restartEnabled = false ∧
    (stage_and_script env fs1).reportedSuccess = false := by
  have hexe : env.exe_path ≠ env.exe_path ++ ".new" :=
    str_append_ne _ _ (by decide)
  have hbat : env.exe_path ++ ".update.bat" ≠ env.exe_path ++ ".new" :=
    str_append_ne_append _ _ _ (by decide)
  cases hs : env.staging with
  | ok => exact absurd hs hfail
  | raises leftover =>
    cases leftover with
    | none => simp [stage_and_script, hs]
    | some c =>
      refine ⟨?_, ?_, ?_, ?_, ?_⟩ <;> simp only [stage_and_script, hs]
      · exact fs_lookup_write_ne fs1 c hexe
      · exact fs_lookup_write_ne fs1 c hbat
  | completesButAbsent =>
    refine ⟨?_, ?_, ?_, ?_, ?_⟩ <;> simp only [stage_and_script, hs]
    · exact fs_lookup_erase_ne fs1 hexe
    · exact fs_lookup_erase_ne fs1 hbat

/-- Claim C1: in executable mode, if the staging copy fails or the staged
file is absent after it, the update aborts with no change to the live
executable: its path holds content byte-identical to the pre-update
content, and no replacement script is created or enabled for restart
(this also covers the abort when a locked pre-existing staged file cannot
be removed). -/
theorem update_exe_staging_failure_frame (env : ExeEnv)
    (hfail : env.staging ≠ StagingResult.ok) :
    FS.lookup (update_exe_staging env).fs env.exe_path
        = FS.lookup env.fs env.exe_path ∧
    FS.lookup (update_exe_staging env).fs (env.exe_path ++ ".update.bat")
        = FS.lookup env.fs (env.exe_path ++ ".update.bat") ∧
    (update_exe_staging env).scriptCreated = false ∧
    (update_exe_staging env).restartEnabled = false ∧
    (update_exe_staging env).reportedSuccess = false := by
  have hexe : env.exe_path ≠ env.exe_path ++ ".new" :=
    str_append_ne _ _ (by decide)
  have hbat : env.exe_path ++ ".update.bat" ≠ env.exe_path ++ ".new" :=
    str_append_ne_append _ _ _ (by decide)
  simp only [update_exe_staging]
  by_cases h1 : ((FS.lookup env.fs (env.exe_path ++ ".new")).isSome
      && env.stagedPreLocked) = true
  · rw [if_pos h1]
    by_cases h2 : env.stagedUnlockOk = true
    · rw [if_pos h2]
      exact stage_and_script_failure env env.fs hfail
    · rw [if_neg h2]
      by_cases h3 : env.stagedRemoveOk = true
      · rw [if_pos h3]
        obtain ⟨ha, hb, hc, hd, he⟩ := stage_and_script_failure env
          (FS.erase env.fs (env.exe_path ++ ".new")) hfail
        refine ⟨?_, ?_, hc, hd, he⟩
        · rw [ha]
          exact fs_lookup_erase_ne env.fs hexe
        · rw [hb]
          exact fs_lookup_erase_ne env.fs hbat
      · rw [if_neg h3]
        exact ⟨rfl, rfl, rfl, rfl, rfl⟩
  · rw [if_neg h1]
    exact stage_and_script_failure env env.fs hfail

/-- Witness for C1: a staging copy that raises after a truncated write
leaves the live executable bytes unchanged and creates no script. -/
theorem update_exe_staging_failure_frame_witness :
    FS.lookup (update_exe_staging exeStagingFailEnv).fs "app.exe"
        = FS.lookup exeStagingFailEnv.fs "app.exe" ∧
    (update_exe_staging exeStagingFailEnv).scriptCreated = false ∧
    (update_exe_staging exeStagingFailEnv).restartEnabled = false :=
  ⟨(update_exe_staging_failure_frame exeStagingFailEnv (by decide)).1,
   (update_exe_staging_failure_frame exeStagingFailEnv (by decide)).2.2.1,
   (update_exe_staging_failure_frame exeStagingFailEnv (by decide)).2.2.2.1⟩

/-- Counterexample to claim C2 as stated: a run of Updater.update_source
in which the copy of the required item src raises is still reported as a
successful update (progress 100, success report), with the failure logged
but nothing propagated to the caller. -/
theorem update_source_swallows_copy_failure :
    (update_source envItemFail).reportedSuccess = true ∧
    (update_source envItemFail).finalProgress = 100 ∧
    (update_source envItemFail).errorLogs
        = ["Failed to copy src: PermissionError: file is locked"] ∧
    (update_source envItemFail).raisedToCaller = none := by decide

/-- Claim C2 as amended: every exception during the source-mode update
flow is caught — an exception reaching the top-level handler transitions
the run to failure and is reported to the log/progress collaborator
(error log, progress reset to 0), but it is not propagated to the caller;
a per-item copy failure is caught inside the loop and logged at error
severity while the run continues and is still reported as a successful
update. -/
theorem update_source_error_handling (env : SrcEnv) :
    (update_source env).raisedToCaller = none ∧
    ((update_source env).reportedSuccess = false →
       (update_source env).finalProgress = 0 ∧
       (update_source env).errorLogs ≠ []) ∧
    (env.projectRootFound = true → env.metadataOk = true →
       (env.releaseRootFound = true ∨ env.mainRootFound = true) →
       (update_source env).reportedSuccess = true ∧
       (update_source env).finalProgress = 100) ∧
    (∀ item e, env.projectRootFound = true → env.metadataOk = true →
       (env.releaseRootFound = true ∨ env.mainRootFound = true) →
       item ∈ items_to_copy → env.itemPresent item = true →
       env.itemCopyError item = some e →
       ("Failed to copy " ++ item ++ ": " ++ e) ∈ (update_source env).errorLogs) := by
  by_cases hp : env.projectRootFound = true
  · by_cases hm : env.metadataOk = true
    · by_cases hr : (env.releaseRootFound || env.mainRootFound) = true
      · refine ⟨?_, ?_, ?_, ?_⟩
        · simp [update_source, hp, hm, hr, successRun]
        · simp [update_source, hp, hm, hr, successRun]
        · intro _ _ _
          simp [update_source, hp, hm, hr, successRun]
        · intro item e _ _ _ hmem hpres hcerr
          simp only [update_source, hp, hm, hr, if_true, successRun]
          simp only [copy_error_logs, List.mem_filterMap]
          refine ⟨item, ?_, ?_⟩
          · exact List.mem_append_left _ hmem
          · simp [hpres, hcerr]
      · have hr2 : (env.releaseRootFound = true ∨ env.mainRootFound = true) → False := by
          intro hor
          rcases hor with h | h <;> simp [h] at hr
        refine ⟨?_, ?_, ?_, ?_⟩
        · simp [update_source, hp, hm, hr, failedRun]
        · simp [update_source, hp, hm, hr, failedRun]
        · intro _ _ hor
          exact absurd hor hr2
        · intro item e _ _ hor
          exact absurd hor (fun h => (hr2 h).elim)
    · refine ⟨?_, ?_, ?_, ?_⟩
      · simp [update_source, hp, hm, failedRun]
      · simp [update_source, hp, hm, failedRun]
      · intro _ hm2
        exact absurd hm2 hm
      · intro item e _ hm2
        exact absurd hm2 hm
  · refine ⟨?_, ?_, ?_, ?_⟩
    · simp [update_source, hp, failedRun]
    · simp [update_source, hp, failedRun]
    · intro hp2
      exact absurd hp2 hp
    · intro item e hp2
      exact absurd hp2 hp

/-- Witness for C2 (amended) on the fully successful run: nothing raised
to the caller and success reported. -/
theorem update_source_error_handling_witness :
    (update_source envAllOk).raisedToCaller = none ∧
    (update_source envAllOk).reportedSuccess = true :=
  ⟨(update_source_error_handling envAllOk).1,
   ((update_source_error_handling envAllOk).2.2.1 rfl rfl (Or.inl rfl)).1⟩

/-- Counterexample to claim C3 as stated: a run of Updater.update_source
whose archive-root location fails in both the release zipball and the
main-branch fallback raises after the session temporary directory was
created, and returns with the temporary directory still in place. -/
theorem update_source_temp_leak :
    (update_source envRootNotFound).tempCreated = true ∧
    (update_source envRootNotFound).tempCleaned = false ∧
    (update_source envRootNotFound).reportedSuccess = false := by decide

/-- Claim C3 as amended: the session temporary directory is removed
before the flow returns on the success path, but a run that fails after
the temporary directory was created returns with the directory still in
place — the top-level exception handler performs no cleanup. -/
theorem update_source_temp_cleanup (env : SrcEnv) :
    ((update_source env).reportedSuccess = true →
       (update_source env).tempCleaned = true) ∧
    ((update_source env).tempCreated = true →
       (update_source env).reportedSuccess = false →
       (update_source env).tempCleaned = false) := by
  by_cases hp : env.projectRootFound = true
  · by_cases hm : env.metadataOk = true
    · by_cases hr : (env.releaseRootFound || env.mainRootFound) = true
      · constructor
        · intro _
          simp [update_source, hp, hm, hr, successRun]
        · intro _ hfalse
          simp [update_source, hp, hm, hr, successRun] at hfalse
      · constructor
        · intro htrue
          simp [update_source, hp, hm, hr, failedRun] at htrue
        · intro _ _
          simp [update_source, hp, hm, hr, failedRun]
    · constructor
      · intro htrue
        simp [update_source, hp, hm, failedRun] at htrue
      · intro hcreated
        simp [update_source, hp, hm, failedRun] at hcreated
  · constructor
    · intro htrue
      simp [update_source, hp, failedRun] at htrue
    · intro hcreated
      simp [update_source, hp, failedRun] at hcreated

/-- Witness for C3 (amended) on the fully successful run: the temporary
directory is removed. -/
theorem update_source_temp_cleanup_witness :
    (update_source envAllOk).tempCleaned = true :=
  (update_source_temp_cleanup envAllOk).1 (by decide)
